import Mathlib

/-!
Shallow embedding of the vibez step-sequencer synthesizer engine
(src/main.rs): the Voice oscillator/envelope, the scale/pitch mappers,
Track, and the Sequencer step clock with its triggering loop.

Modelling conventions:
* `f32` fields are embedded as real numbers (`ℝ`), matching the design
  description of the fields as reals; `usize` as `ℕ`, `i32` as `ℤ`.
* A Rust runtime panic (indexing with a zero modulus, out-of-range
  indexing) is modelled by `Option`: `none` is a panic.
* The `as usize` cast of a non-negative float is modelled by `Nat.floor`
  (saturation at `usize::MAX` is out of range for every input considered
  here and is not modelled).
* In-place mutation is modelled by explicit state passing.
-/

namespace Vibez

/-- The four waveform variants of `enum Waveform`. -/
inductive Waveform
  | Sine
  | Saw
  | Square
  | Triangle
deriving DecidableEq

/-- `struct Voice`: oscillator phase, frequency, waveform, amplitude and
the ADSR envelope fields of src/main.rs lines 19-31. -/
structure Voice where
  phase : ℝ
  frequency : ℝ
  waveform : Waveform
  amp : ℝ
  attack : ℝ
  decay : ℝ
  sustain : ℝ
  release : ℝ
  env_phase : ℝ

/-- `Voice::new()`. -/
def Voice.new : Voice where
  phase := 0
  frequency := 440
  waveform := Waveform.Saw
  amp := 0.15
  attack := 0.01
  decay := 0.1
  sustain := 0.3
  release := 0.1
  env_phase := 0

/-- `Voice::set_frequency`. -/
def Voice.set_frequency (v : Voice) (freq : ℝ) : Voice := { v with frequency := freq }

/-- `Voice::reset_env`. -/
def Voice.reset_env (v : Voice) : Voice := { v with env_phase := 0 }

/-- The waveform match at the top of `Voice::process` (lines 51-56). -/
noncomputable def waveSample (w : Waveform) (phase : ℝ) : ℝ :=
  match w with
  | Waveform.Saw => 2 * (phase - 0.5)
  | Waveform.Sine => Real.sin (2 * Real.pi * phase)
  | Waveform.Square => if phase < 0.5 then 1 else -1
  | Waveform.Triangle => 1 - |4 * (phase - 0.25)|

/-- The envelope computation of `Voice::process` (lines 62-68), reading the
pre-increment `env_phase`. -/
noncomputable def envValue (v : Voice) : ℝ :=
  if v.env_phase < v.attack then
    v.env_phase / v.attack
  else if v.env_phase < v.attack + v.decay then
    1 - ((v.env_phase - v.attack) / v.decay) * (1 - v.sustain)
  else
    v.sustain

/-- `Voice::process(sample_rate)`: returns the updated voice and the output
sample.  The sample uses the pre-update phase, the envelope the pre-update
`env_phase`; phase wraps by a single subtraction of 1 when it reaches 1. -/
noncomputable def Voice.process (v : Voice) (sample_rate : ℝ) : Voice × ℝ :=
  let sample := waveSample v.waveform v.phase
  let phase1 := v.phase + v.frequency / sample_rate
  let phase2 := if phase1 ≥ 1 then phase1 - 1 else phase1
  let env := envValue v
  ({ v with phase := phase2, env_phase := v.env_phase + 1 / sample_rate },
   sample * v.amp * env)

/-- Iterated `Voice::process`, keeping only the voice state. -/
noncomputable def Voice.processIter (sample_rate : ℝ) : ℕ → Voice → Voice
  | 0, v => v
  | n + 1, v => Voice.processIter sample_rate n (v.process sample_rate).1

/-- `midi_to_freq(n) = 440 * 2^((n-69)/12)` (line 84). -/
noncomputable def midi_to_freq (n : ℤ) : ℝ :=
  440 * (2 : ℝ) ^ (((n : ℝ) - 69) / 12)

/-- `note_to_semitone` (lines 91-96): case-normalised note name to a
semitone offset, unknown names map to 0. -/
def note_to_semitone (name : String) : ℤ :=
  match name.toLower with
  | "c" => 0
  | "c#" => 1
  | "db" => 1
  | "d" => 2
  | "d#" => 3
  | "eb" => 3
  | "e" => 4
  | "f" => 5
  | "f#" => 6
  | "gb" => 6
  | "g" => 7
  | "g#" => 8
  | "ab" => 8
  | "a" => 9
  | "a#" => 10
  | "bb" => 10
  | "b" => 11
  | _ => 0

/-- `minor_scale` (lines 86-89). -/
def minor_scale (root : String) : List ℤ :=
  [0, 2, 3, 5, 7, 8, 10].map (fun x => x + note_to_semitone root)

/-- `struct Track` (lines 104-112). -/
structure Track where
  name : String
  pattern : List ℤ
  octave : ℤ
  transpose : ℤ
  waveform : Waveform
  voice_spread : ℤ

/-- `Track::new` (lines 115-124). -/
def Track.new (name : String) : Track where
  name := name
  pattern := [0]
  octave := 3
  transpose := 0
  waveform := Waveform.Saw
  voice_spread := 7

/-- `struct ProjectData` (lines 133-138). -/
structure ProjectData where
  tracks : List Track
  scale : List ℤ
  bpm : ℝ

/-- `struct Sequencer` (lines 140-150). -/
structure Sequencer where
  tracks : List Track
  scale : List ℤ
  voices : List (List Voice)
  sample_rate : ℝ
  step : ℕ
  samples_per_step : ℕ
  sample_counter : ℕ

/-- `Sequencer::new(sample_rate)` (lines 153-163). -/
noncomputable def Sequencer.new (sample_rate : ℝ) : Sequencer where
  tracks := [Track.new "Main"]
  scale := minor_scale "g"
  voices := [List.replicate 3 Voice.new]
  sample_rate := sample_rate
  step := 0
  samples_per_step := ⌊sample_rate / 4⌋₊
  sample_counter := 0

/-- `Sequencer::from_project` (lines 165-181): one fresh 3-voice stack per
track of the project. -/
noncomputable def Sequencer.from_project (project : ProjectData) (sample_rate : ℝ) : Sequencer where
  tracks := project.tracks
  scale := project.scale
  voices := List.replicate project.tracks.length (List.replicate 3 Voice.new)
  sample_rate := sample_rate
  step := 0
  samples_per_step := ⌊sample_rate * 60 / project.bpm / 4⌋₊
  sample_counter := 0

/-- `Sequencer::add_track` (lines 183-186). -/
def Sequencer.add_track (s : Sequencer) (track : Track) : Sequencer :=
  { s with
    tracks := s.tracks ++ [track]
    voices := s.voices ++ [List.replicate 3 Voice.new] }

/-- `Sequencer::get_max_pattern_len` (lines 212-214):
`tracks.iter().map(|t| t.pattern.len()).max().unwrap_or(1)` — note the
default 1 applies only when there are no tracks at all. -/
def Sequencer.get_max_pattern_len (s : Sequencer) : ℕ :=
  ((s.tracks.map fun t => t.pattern.length).max?).getD 1

/-- The body of one iteration of the `trigger_step` loop (lines 217-233)
for one track: `none` models the panic `(note as usize) % 0` /
out-of-range indexing when the scale is empty and the note is not a rest;
`some act` is what the iteration does to that track's voice stack
(the identity for an empty pattern or a rest). -/
noncomputable def trackAction (scale : List ℤ) (step : ℕ) (t : Track) :
    Option (List Voice → List Voice) :=
  if hp : t.pattern.length = 0 then some id
  else
    let note := t.pattern.get ⟨step % t.pattern.length, Nat.mod_lt _ (Nat.pos_of_ne_zero hp)⟩
    if note < 0 then some id
    else if hs : scale.length = 0 then none
    else
      let scale_note := scale.get ⟨note.toNat % scale.length, Nat.mod_lt _ (Nat.pos_of_ne_zero hs)⟩
      let midi_base := scale_note + t.transpose + t.octave * 12
      some fun vs => vs.mapIdx fun i v =>
        Voice.reset_env
          { v.set_frequency (midi_to_freq (midi_base + (i : ℤ) * t.voice_spread)) with
            waveform := t.waveform }

/-- The `trigger_step` loop over all tracks (lines 217-234): tracks beyond
the end of `voices` still evaluate their note and scale lookup (and can
panic), but update nothing, mirroring the `track_idx < voices.len()`
guard. -/
noncomputable def triggerLoop (scale : List ℤ) (step : ℕ) :
    List Track → List (List Voice) → Option (List (List Voice))
  | [], vss => some vss
  | t :: ts, [] => (trackAction scale step t).bind fun _ => triggerLoop scale step ts []
  | t :: ts, vs :: rest =>
    (trackAction scale step t).bind fun act =>
      (triggerLoop scale step ts rest).map fun l => act vs :: l

/-- `Sequencer::trigger_step` (lines 216-235). -/
noncomputable def Sequencer.trigger_step (s : Sequencer) : Option Sequencer :=
  (triggerLoop s.scale s.step s.tracks s.voices).map fun vss => { s with voices := vss }

/-- The clock half of `Sequencer::process` (lines 189-194): increment the
sample counter; at a boundary reset it, advance
`step = (step + 1) % get_max_pattern_len()` — a panic (`none`) when that
modulus is 0 — and run the trigger. -/
noncomputable def Sequencer.afterClock (s : Sequencer) : Option Sequencer :=
  if s.sample_counter + 1 ≥ s.samples_per_step then
    if s.get_max_pattern_len = 0 then none
    else
      Sequencer.trigger_step
        { s with sample_counter := 0, step := (s.step + 1) % s.get_max_pattern_len }
  else
    some { s with sample_counter := s.sample_counter + 1 }

/-- The mixing half of `Sequencer::process` (lines 196-209), state part:
every voice of every track is processed once. -/
noncomputable def Sequencer.mixState (s : Sequencer) : Sequencer :=
  { s with voices := s.voices.map fun vs => vs.map fun v => (v.process s.sample_rate).1 }

/-- The mixing half of `Sequencer::process` (lines 196-209), output part:
the sum of all voice outputs over the total voice count, 0 when there are
no voices. -/
noncomputable def Sequencer.mixOut (s : Sequencer) : ℝ :=
  let n := (s.voices.map List.length).sum
  if 0 < n then
    (s.voices.map fun vs => (vs.map fun v => (v.process s.sample_rate).2).sum).sum / (n : ℝ)
  else 0

/-- `Sequencer::process` (lines 188-210). -/
noncomputable def Sequencer.process (s : Sequencer) : Option (Sequencer × ℝ) :=
  (s.afterClock).map fun s1 => (s1.mixState, s1.mixOut)

/-- `Sequencer::process` iterated, keeping only the state. -/
noncomputable def Sequencer.processN : ℕ → Sequencer → Option Sequencer
  | 0, s => some s
  | n + 1, s => (s.process).bind fun p => Sequencer.processN n p.1

/-- `Sequencer::to_project` (lines 237-243). -/
def Sequencer.to_project (s : Sequencer) (bpm : ℝ) : ProjectData where
  tracks := s.tracks
  scale := s.scale
  bpm := bpm

/-- The per-stack frequencies of a sequencer's voices. -/
def seqFreqs (s : Sequencer) : List (List ℝ) :=
  s.voices.map (List.map Voice.frequency)

/-! ## Voice-level lemmas -/

theorem Voice.process_frequency (v : Voice) (sr : ℝ) :
    (v.process sr).1.frequency = v.frequency := rfl

theorem Voice.process_waveform (v : Voice) (sr : ℝ) :
    (v.process sr).1.waveform = v.waveform := rfl

theorem Voice.process_phase (v : Voice) (sr : ℝ) :
    (v.process sr).1.phase =
      if v.phase + v.frequency / sr ≥ 1 then v.phase + v.frequency / sr - 1
      else v.phase + v.frequency / sr := rfl

theorem Voice.process_snd (v : Voice) (sr : ℝ) :
    (v.process sr).2 = waveSample v.waveform v.phase * v.amp * envValue v := rfl

/-- The envelope value is within [0, 1] for a non-negative `env_phase` and a
sustain level within [0, 1], whatever the attack and decay durations. -/
theorem envValue_bounds (v : Voice) (hs0 : 0 ≤ v.sustain) (hs1 : v.sustain ≤ 1)
    (he : 0 ≤ v.env_phase) : 0 ≤ envValue v ∧ envValue v ≤ 1 := by
  unfold envValue
  split_ifs with h1 h2
  · have ha : 0 < v.attack := lt_of_le_of_lt he h1
    exact ⟨div_nonneg he ha.le, (div_le_one ha).mpr h1.le⟩
  · have ht : v.attack ≤ v.env_phase := not_lt.mp h1
    have hd : 0 < v.decay := by linarith
    have hx0 : 0 ≤ (v.env_phase - v.attack) / v.decay := div_nonneg (by linarith) hd.le
    have hx1 : (v.env_phase - v.attack) / v.decay < 1 := (div_lt_one hd).mpr (by linarith)
    have hm0 : 0 ≤ (v.env_phase - v.attack) / v.decay * (1 - v.sustain) :=
      mul_nonneg hx0 (by linarith)
    have hm1 : (v.env_phase - v.attack) / v.decay * (1 - v.sustain) ≤ 1 * 1 :=
      mul_le_mul hx1.le (by linarith) (by linarith) (by norm_num)
    constructor <;> nlinarith
  · exact ⟨hs0, hs1⟩

/-- Every waveform sample has magnitude at most 2 for a phase in [0, 1);
the triangle branch is the one that exceeds magnitude 1. -/
theorem abs_waveSample_le_two (w : Waveform) (p : ℝ) (h0 : 0 ≤ p) (h1 : p < 1) :
    |waveSample w p| ≤ 2 := by
  cases w with
  | Sine =>
    have := Real.sin_le_one (2 * Real.pi * p)
    have := Real.neg_one_le_sin (2 * Real.pi * p)
    rw [waveSample, abs_le]
    constructor <;> linarith
  | Saw =>
    rw [waveSample, abs_le]
    constructor <;> nlinarith
  | Square =>
    rw [waveSample]
    split_ifs <;> norm_num
  | Triangle =>
    have ht : |4 * (p - 0.25)| ≤ 3 := by
      rw [abs_le]; constructor <;> nlinarith
    have ht0 : (0 : ℝ) ≤ |4 * (p - 0.25)| := abs_nonneg _
    rw [waveSample, abs_le]
    constructor <;> nlinarith

/-! ## C3: output magnitude bound -/

/-- A concrete voice state: triangle waveform near the top of its cycle
with the envelope parked at sustain level 1. -/
def triVoice : Voice where
  phase := 0.9
  frequency := 440
  waveform := Waveform.Triangle
  amp := 0.15
  attack := 0
  decay := 0
  sustain := 1
  release := 0.1
  env_phase := 0

/-- C3 counterexample: a triangle-wave voice at phase 0.9 with envelope at
sustain level 1 outputs the sample −0.24, of magnitude strictly more than
its amplitude 0.15: the claimed bound `|output| ≤ amp` is false. -/
theorem C3_counterexample :
    ¬ |(triVoice.process 44100).2| ≤ triVoice.amp := by
  have hw : (triVoice.process 44100).2 =
      (1 - |4 * ((0.9 : ℝ) - 0.25)|) * 0.15 * envValue triVoice := rfl
  have h2 : envValue triVoice = 1 := by
    simp only [envValue, triVoice]
    norm_num
  have ha : |4 * ((0.9 : ℝ) - 0.25)| = 2.6 := by
    rw [abs_of_pos] <;> norm_num
  have hamp : triVoice.amp = 0.15 := rfl
  rw [hw, h2, ha, hamp]
  rw [show ((1 : ℝ) - 2.6) * 0.15 * 1 = -0.24 by norm_num]
  rw [abs_of_nonpos (by norm_num)]
  norm_num

/-- C3 amended: for every voice with phase in [0, 1), sustain in [0, 1],
non-negative `env_phase` and non-negative amplitude, the output of
`process` has magnitude at most `2 * amp`: the raw waveform value has
magnitude at most 2 (the triangle reaches −2 near the top of the cycle;
the other three waveforms stay within 1) and the envelope value is at
most 1. -/
theorem C3_process_output_bounded (v : Voice) (sr : ℝ)
    (hp0 : 0 ≤ v.phase) (hp1 : v.phase < 1)
    (hs0 : 0 ≤ v.sustain) (hs1 : v.sustain ≤ 1)
    (he : 0 ≤ v.env_phase) (ha : 0 ≤ v.amp) :
    |(v.process sr).2| ≤ 2 * v.amp := by
  rw [Voice.process_snd]
  obtain ⟨he0, he1⟩ := envValue_bounds v hs0 hs1 he
  have hw := abs_waveSample_le_two v.waveform v.phase hp0 hp1
  calc |waveSample v.waveform v.phase * v.amp * envValue v|
      = |waveSample v.waveform v.phase| * |v.amp| * |envValue v| := by
        rw [abs_mul, abs_mul]
    _ = |waveSample v.waveform v.phase| * v.amp * envValue v := by
        rw [abs_of_nonneg ha, abs_of_nonneg he0]
    _ ≤ 2 * v.amp * 1 := by
        have h1 : |waveSample v.waveform v.phase| * v.amp ≤ 2 * v.amp :=
          mul_le_mul_of_nonneg_right hw ha
        exact mul_le_mul h1 he1 he0 (by positivity)
    _ = 2 * v.amp := by ring

/-- C3 witness: the bound holds for a freshly constructed voice. -/
theorem C3_witness :
    |(Voice.new.process 44100).2| ≤ 2 * Voice.new.amp :=
  C3_process_output_bounded Voice.new 44100
    (by norm_num [Voice.new]) (by norm_num [Voice.new]) (by norm_num [Voice.new])
    (by norm_num [Voice.new]) (by norm_num [Voice.new]) (by norm_num [Voice.new])

/-! ## C4: phase invariant -/

/-- C4 counterexample: a voice with positive frequency three times the
sample rate leaves phase = 2 after one `process` call: the single
subtraction of 1 does not bring the phase back into [0, 1). -/
theorem C4_counterexample :
    ¬ ({ Voice.new with frequency := 132300 }.process 44100).1.phase < 1 := by
  rw [Voice.process_phase]
  norm_num [Voice.new]

/-- C4 amended: for every voice whose phase starts in [0, 1) and whose
frequency satisfies `0 < frequency ≤ sample_rate`, after any number of
`process` calls the phase is still in [0, 1); with frequency above the
sample rate a single call can leave the phase at 1 or more, since the
wrap subtracts 1 only once. -/
theorem C4_phase_invariant (n : ℕ) (sr : ℝ) (v : Voice)
    (h0 : 0 ≤ v.phase) (h1 : v.phase < 1)
    (hf : 0 < v.frequency) (hfs : v.frequency ≤ sr) :
    0 ≤ (Voice.processIter sr n v).phase ∧ (Voice.processIter sr n v).phase < 1 := by
  induction n generalizing v with
  | zero => exact ⟨h0, h1⟩
  | succ n ih =>
    have hsr : 0 < sr := lt_of_lt_of_le hf hfs
    have hq0 : 0 < v.frequency / sr := div_pos hf hsr
    have hq1 : v.frequency / sr ≤ 1 := (div_le_one hsr).mpr hfs
    rw [Voice.processIter]
    refine ih (v.process sr).1 ?_ ?_ ?_ ?_
    · rw [Voice.process_phase]
      split_ifs with h <;> linarith
    · rw [Voice.process_phase]
      split_ifs with h <;> linarith
    · rw [Voice.process_frequency]; exact hf
    · rw [Voice.process_frequency]; exact hfs

/-- C4 witness: the invariant after two calls on a fresh voice. -/
theorem C4_witness :
    0 ≤ (Voice.processIter 44100 2 Voice.new).phase ∧
      (Voice.processIter 44100 2 Voice.new).phase < 1 :=
  C4_phase_invariant 2 44100 Voice.new (by norm_num [Voice.new])
    (by norm_num [Voice.new]) (by norm_num [Voice.new]) (by norm_num [Voice.new])

/-! ## C8: zero attack is guarded -/

/-- C8: with `attack = 0` and `env_phase = 0`, the attack branch (the only
division by `attack`) is not taken; with `decay > 0` the envelope value is
exactly 1 (full gain immediately), and with `decay = 0` both ramp branches
are skipped and the value is `sustain`. -/
theorem C8_attack_zero_guarded (v : Voice) (ha : v.attack = 0) (he : v.env_phase = 0) :
    ¬ v.env_phase < v.attack ∧
      (0 < v.decay → envValue v = 1) ∧
      (v.decay = 0 → envValue v = v.sustain) := by
  refine ⟨by rw [ha, he]; exact lt_irrefl 0, ?_, ?_⟩
  · intro hd
    rw [envValue, ha, he]
    rw [if_neg (lt_irrefl 0), if_pos (by linarith)]
    norm_num
  · intro hd
    rw [envValue, ha, he, hd]
    norm_num

/-- C8 witness: a fresh voice with its attack set to 0 has envelope value 1. -/
theorem C8_witness : envValue { Voice.new with attack := 0 } = 1 :=
  (C8_attack_zero_guarded { Voice.new with attack := 0 } rfl rfl).2.1
    (by norm_num [Voice.new])

/-! ## C9: envelope monotonicity -/

/-- The envelope value as a function of the elapsed time `t` alone. -/
theorem envValue_at (v : Voice) (t : ℝ) :
    envValue { v with env_phase := t } =
      if t < v.attack then t / v.attack
      else if t < v.attack + v.decay then
        1 - (t - v.attack) / v.decay * (1 - v.sustain)
      else v.sustain := rfl

/-- C9: with fixed `attack > 0`, `decay > 0` and sustain in [0, 1], the
envelope value as a function of `env_phase` is non-decreasing on
[0, attack), non-increasing on [attack, attack + decay), and exactly
`sustain` from `attack + decay` on. -/
theorem C9_envelope_monotone (v : Voice) (ha : 0 < v.attack) (hd : 0 < v.decay)
    (hs0 : 0 ≤ v.sustain) (hs1 : v.sustain ≤ 1) :
    (∀ t1 t2 : ℝ, 0 ≤ t1 → t1 ≤ t2 → t2 < v.attack →
      envValue { v with env_phase := t1 } ≤ envValue { v with env_phase := t2 }) ∧
    (∀ t1 t2 : ℝ, v.attack ≤ t1 → t1 ≤ t2 → t2 < v.attack + v.decay →
      envValue { v with env_phase := t2 } ≤ envValue { v with env_phase := t1 }) ∧
    (∀ t : ℝ, v.attack + v.decay ≤ t →
      envValue { v with env_phase := t } = v.sustain) := by
  refine ⟨?_, ?_, ?_⟩
  · intro t1 t2 h0 h12 h2a
    rw [envValue_at, envValue_at,
      if_pos (lt_of_le_of_lt h12 h2a), if_pos h2a]
    exact (div_le_div_iff_of_pos_right ha).mpr h12
  · intro t1 t2 ha1 h12 h2d
    rw [envValue_at, envValue_at,
      if_neg (not_lt.mpr ha1), if_neg (not_lt.mpr (ha1.trans h12)),
      if_pos (lt_of_le_of_lt h12 h2d), if_pos h2d]
    have hmul : (t1 - v.attack) / v.decay * (1 - v.sustain) ≤
        (t2 - v.attack) / v.decay * (1 - v.sustain) :=
      mul_le_mul_of_nonneg_right
        ((div_le_div_iff_of_pos_right hd).mpr (by linarith)) (by linarith)
    linarith
  · intro t ht
    rw [envValue_at,
      if_neg (not_lt.mpr (by linarith)), if_neg (not_lt.mpr ht)]

/-- C9 witness: for a fresh voice, past attack + decay the envelope sits at
the sustain level. -/
theorem C9_witness :
    envValue { Voice.new with env_phase := 1 } = Voice.new.sustain :=
  (C9_envelope_monotone Voice.new (by norm_num [Voice.new]) (by norm_num [Voice.new])
    (by norm_num [Voice.new]) (by norm_num [Voice.new])).2.2 1 (by norm_num [Voice.new])

/-! ## Trigger-loop lemmas -/

/-- A track whose current pattern entry is a rest contributes the identity
action. -/
theorem trackAction_rest (scale : List ℤ) (step : ℕ) (t : Track)
    (note : ℤ) (hnote : t.pattern[step % t.pattern.length]? = some note)
    (hneg : note < 0) : trackAction scale step t = some id := by
  have hp : t.pattern.length ≠ 0 := by
    intro h0
    rw [List.getElem?_eq_none (by rw [h0]; exact Nat.zero_le _)] at hnote
    cases hnote
  have hlt : step % t.pattern.length < t.pattern.length :=
    Nat.mod_lt _ (Nat.pos_of_ne_zero hp)
  have hget : t.pattern.get ⟨step % t.pattern.length, hlt⟩ = note := by
    rw [List.get_eq_getElem]
    rw [List.getElem?_eq_getElem hlt] at hnote
    exact Option.some.inj hnote
  rw [trackAction, dif_neg hp]
  simp only [hget, if_pos hneg]

/-- A track whose current pattern entry is a non-negative note, against a
scale in which that note's degree resolves to `sn`, contributes the action
that re-tunes every voice of the stack: frequency from `midi_to_freq`,
the track's waveform, envelope phase reset to 0. -/
theorem trackAction_note (scale : List ℤ) (step : ℕ) (t : Track)
    (note : ℤ) (hnote : t.pattern[step % t.pattern.length]? = some note)
    (hpos : 0 ≤ note) (sn : ℤ) (hsn : scale[note.toNat % scale.length]? = some sn) :
    trackAction scale step t = some fun vs => vs.mapIdx fun i v =>
      { v with
        frequency := midi_to_freq (sn + t.transpose + t.octave * 12 + (i : ℤ) * t.voice_spread),
        waveform := t.waveform, env_phase := 0 } := by
  have hp : t.pattern.length ≠ 0 := by
    intro h0
    rw [List.getElem?_eq_none (by rw [h0]; exact Nat.zero_le _)] at hnote
    cases hnote
  have hs : scale.length ≠ 0 := by
    intro h0
    rw [List.getElem?_eq_none (by rw [h0]; exact Nat.zero_le _)] at hsn
    cases hsn
  have hlt : step % t.pattern.length < t.pattern.length :=
    Nat.mod_lt _ (Nat.pos_of_ne_zero hp)
  have hget : t.pattern.get ⟨step % t.pattern.length, hlt⟩ = note := by
    rw [List.get_eq_getElem]
    rw [List.getElem?_eq_getElem hlt] at hnote
    exact Option.some.inj hnote
  have hslt : note.toNat % scale.length < scale.length :=
    Nat.mod_lt _ (Nat.pos_of_ne_zero hs)
  have hsget : scale.get ⟨note.toNat % scale.length, hslt⟩ = sn := by
    rw [List.get_eq_getElem]
    rw [List.getElem?_eq_getElem hslt] at hsn
    exact Option.some.inj hsn
  rw [trackAction, dif_neg hp]
  simp only [hget, if_neg (not_lt.mpr hpos), dif_neg hs, hsget]
  rfl

/-- The trigger loop keeps the number of voice stacks. -/
theorem triggerLoop_length (scale : List ℤ) (step : ℕ) :
    ∀ (ts : List Track) (vss out : List (List Voice)),
      triggerLoop scale step ts vss = some out → out.length = vss.length := by
  intro ts
  induction ts with
  | nil =>
    intro vss out h
    rw [triggerLoop] at h
    cases h
    rfl
  | cons t ts ih =>
    intro vss out h
    cases vss with
    | nil =>
      rw [triggerLoop] at h
      cases hact : trackAction scale step t with
      | none => simp [hact] at h
      | some act =>
        simp only [hact, Option.some_bind] at h
        simpa using ih [] out h
    | cons vs rest =>
      rw [triggerLoop] at h
      cases hact : trackAction scale step t with
      | none => simp [hact] at h
      | some act =>
        simp only [hact, Option.some_bind] at h
        cases hrec : triggerLoop scale step ts rest with
        | none => simp [hrec] at h
        | some l =>
          rw [hrec, Option.map_some'] at h
          cases h
          simp [ih rest l hrec]

/-- Within range of both lists, the trigger loop applies exactly the
current track's action to the matching voice stack. -/
theorem triggerLoop_getElem (scale : List ℤ) (step : ℕ) :
    ∀ (ts : List Track) (vss out : List (List Voice)),
      triggerLoop scale step ts vss = some out →
      ∀ (i : ℕ) (t : Track) (vs : List Voice),
        ts[i]? = some t → vss[i]? = some vs →
        ∃ act, trackAction scale step t = some act ∧ out[i]? = some (act vs) := by
  intro ts
  induction ts with
  | nil =>
    intro vss out h i t vs hti
    cases hti
  | cons t0 ts ih =>
    intro vss out h i t vs hti hvi
    cases vss with
    | nil => cases hvi
    | cons vs0 rest =>
      rw [triggerLoop] at h
      cases hact : trackAction scale step t0 with
      | none => simp [hact] at h
      | some act0 =>
        simp only [hact, Option.some_bind] at h
        cases hrec : triggerLoop scale step ts rest with
        | none => simp [hrec] at h
        | some l =>
          rw [hrec, Option.map_some'] at h
          cases h
          cases i with
          | zero =>
            simp only [List.getElem?_cons_zero] at hti hvi
            cases Option.some.inj hti
            cases Option.some.inj hvi
            exact ⟨act0, hact, List.getElem?_cons_zero⟩
          | succ i =>
            simp only [List.getElem?_cons_succ] at hti hvi ⊢
            exact ih rest l hrec i t vs hti hvi

/-- `trigger_step` succeeds exactly when the loop does, and only replaces
the voices. -/
theorem trigger_step_cases (s s' : Sequencer) (h : s.trigger_step = some s') :
    ∃ out, triggerLoop s.scale s.step s.tracks s.voices = some out ∧
      s' = { s with voices := out } := by
  rw [Sequencer.trigger_step] at h
  cases hl : triggerLoop s.scale s.step s.tracks s.voices with
  | none => rw [hl] at h; cases h
  | some out =>
    rw [hl] at h
    exact ⟨out, rfl, (Option.some.inj h).symm⟩

/-- The clock and trigger phases never touch the tracks, the scale, the
tempo fields; the trigger keeps the stack count. -/
theorem trigger_step_shape (s s' : Sequencer) (h : s.trigger_step = some s') :
    s'.tracks = s.tracks ∧ s'.scale = s.scale ∧ s'.sample_rate = s.sample_rate ∧
      s'.step = s.step ∧ s'.samples_per_step = s.samples_per_step ∧
      s'.sample_counter = s.sample_counter ∧ s'.voices.length = s.voices.length := by
  obtain ⟨out, hl, rfl⟩ := trigger_step_cases s s' h
  exact ⟨rfl, rfl, rfl, rfl, rfl, rfl, triggerLoop_length _ _ _ _ _ hl⟩

theorem mixState_fields (s : Sequencer) :
    (s.mixState).tracks = s.tracks ∧ (s.mixState).scale = s.scale ∧
      (s.mixState).sample_rate = s.sample_rate ∧ (s.mixState).step = s.step ∧
      (s.mixState).samples_per_step = s.samples_per_step ∧
      (s.mixState).sample_counter = s.sample_counter ∧
      (s.mixState).voices.length = s.voices.length := by
  refine ⟨rfl, rfl, rfl, rfl, rfl, rfl, ?_⟩
  simp [Sequencer.mixState]

/-- `process` succeeds exactly when the clock half does, and mixes after. -/
theorem process_cases (s s' : Sequencer) (out : ℝ) (h : s.process = some (s', out)) :
    ∃ s1, s.afterClock = some s1 ∧ s' = s1.mixState ∧ out = s1.mixOut := by
  rw [Sequencer.process] at h
  cases hc : s.afterClock with
  | none => rw [hc] at h; cases h
  | some s1 =>
    rw [hc] at h
    have := Option.some.inj h
    exact ⟨s1, rfl, congrArg Prod.fst this.symm, congrArg Prod.snd this.symm⟩

/-- `afterClock` keeps the tracks, the scale, the tempo fields and the
stack count. -/
theorem afterClock_shape (s s1 : Sequencer) (h : s.afterClock = some s1) :
    s1.tracks = s.tracks ∧ s1.scale = s.scale ∧ s1.sample_rate = s.sample_rate ∧
      s1.samples_per_step = s.samples_per_step ∧ s1.voices.length = s.voices.length := by
  rw [Sequencer.afterClock] at h
  by_cases hb : s.sample_counter + 1 ≥ s.samples_per_step
  · rw [if_pos hb] at h
    by_cases hm : s.get_max_pattern_len = 0
    · rw [if_pos hm] at h
      exact Option.noConfusion h
    · rw [if_neg hm] at h
      have hs := trigger_step_shape _ _ h
      exact ⟨hs.1, hs.2.1, hs.2.2.1, hs.2.2.2.2.1, hs.2.2.2.2.2.2⟩
  · rw [if_neg hb] at h
    have h' := Option.some.inj h
    subst h'
    exact ⟨rfl, rfl, rfl, rfl, rfl⟩

/-! ## C6: tracks and voices stay index-aligned -/

/-- C6: `new` and `from_project` create one fresh fixed-size (3-voice)
stack per track, `add_track` pushes exactly one track and one fresh stack,
and `trigger_step` / `process` change the length of neither collection. -/
theorem C6_tracks_voices_aligned :
    (∀ sr : ℝ, (Sequencer.new sr).tracks = [Track.new "Main"] ∧
      (Sequencer.new sr).voices = [List.replicate 3 Voice.new]) ∧
    (∀ (p : ProjectData) (sr : ℝ), (Sequencer.from_project p sr).tracks = p.tracks ∧
      (Sequencer.from_project p sr).voices =
        List.replicate p.tracks.length (List.replicate 3 Voice.new)) ∧
    (∀ (s : Sequencer) (t : Track), (s.add_track t).tracks = s.tracks ++ [t] ∧
      (s.add_track t).voices = s.voices ++ [List.replicate 3 Voice.new]) ∧
    (∀ s s' : Sequencer, s.trigger_step = some s' →
      s'.tracks = s.tracks ∧ s'.voices.length = s.voices.length) ∧
    (∀ (s s' : Sequencer) (out : ℝ), s.process = some (s', out) →
      s'.tracks = s.tracks ∧ s'.voices.length = s.voices.length) := by
  refine ⟨fun sr => ⟨rfl, rfl⟩, fun p sr => ⟨rfl, rfl⟩, fun s t => ⟨rfl, rfl⟩, ?_, ?_⟩
  · intro s s' h
    have := trigger_step_shape s s' h
    exact ⟨this.1, this.2.2.2.2.2.2⟩
  · intro s s' out h
    obtain ⟨s1, hc, rfl, -⟩ := process_cases s s' out h
    obtain ⟨ht1, -, -, -, hv1⟩ := afterClock_shape s s1 hc
    have hm := mixState_fields s1
    exact ⟨hm.1.trans ht1, hm.2.2.2.2.2.2.trans hv1⟩

/-! ## C7: a rest leaves the track's voices untouched -/

/-- C7: when the current pattern entry of track `ti` is negative (a rest),
`trigger_step` leaves that track's voice stack exactly as it was —
frequency, waveform and envelope phase included. -/
theorem C7_rest_leaves_voices (s s' : Sequencer) (htr : s.trigger_step = some s')
    (ti : ℕ) (t : Track) (ht : s.tracks[ti]? = some t)
    (note : ℤ) (hnote : t.pattern[s.step % t.pattern.length]? = some note)
    (hneg : note < 0) :
    s'.voices[ti]? = s.voices[ti]? := by
  obtain ⟨out, hl, rfl⟩ := trigger_step_cases s s' htr
  show out[ti]? = s.voices[ti]?
  cases hv : s.voices[ti]? with
  | none =>
    have hlen := triggerLoop_length _ _ _ _ _ hl
    rw [List.getElem?_eq_none]
    rw [hlen]
    by_contra hlt
    rw [List.getElem?_eq_getElem (not_le.mp hlt)] at hv
    cases hv
  | some vs =>
    obtain ⟨act, hact, hout⟩ := triggerLoop_getElem _ _ _ _ _ hl ti t vs ht hv
    rw [trackAction_rest s.scale s.step t note hnote hneg] at hact
    cases Option.some.inj hact
    exact hout

/-! ## C5: a non-rest step re-tunes every voice of the track -/

/-- C5: at a step boundary, a track whose current pattern entry `note` is
non-negative, with the scale resolving degree `note mod len(scale)` to
`sn`, gets every voice `i` of its stack set to frequency
`midi_to_freq (sn + transpose + octave*12 + i*voice_spread)`, the track's
waveform, and envelope phase 0 (all other voice fields unchanged). -/
theorem C5_trigger_sets_track_voices (s s' : Sequencer) (htr : s.trigger_step = some s')
    (ti : ℕ) (t : Track) (ht : s.tracks[ti]? = some t)
    (note : ℤ) (hnote : t.pattern[s.step % t.pattern.length]? = some note)
    (hpos : 0 ≤ note) (sn : ℤ) (hsn : s.scale[note.toNat % s.scale.length]? = some sn)
    (vs : List Voice) (hv : s.voices[ti]? = some vs) :
    s'.voices[ti]? = some (vs.mapIdx fun i v =>
      { v with
        frequency := midi_to_freq (sn + t.transpose + t.octave * 12 + (i : ℤ) * t.voice_spread),
        waveform := t.waveform, env_phase := 0 }) := by
  obtain ⟨out, hl, rfl⟩ := trigger_step_cases s s' htr
  obtain ⟨act, hact, hout⟩ := triggerLoop_getElem _ _ _ _ _ hl ti t vs ht hv
  rw [trackAction_note s.scale s.step t note hnote hpos sn hsn] at hact
  cases Option.some.inj hact
  exact hout

/-! ## C1: process can panic when every pattern is empty -/

/-- A track whose pattern has been edited to be empty. -/
def emptyPatternTrack : Track := { Track.new "t" with pattern := [] }

/-- A sequencer holding one track with an empty pattern, about to cross a
step boundary. -/
noncomputable def panicSeq : Sequencer where
  tracks := [emptyPatternTrack]
  scale := minor_scale "g"
  voices := [List.replicate 3 Voice.new]
  sample_rate := 44100
  step := 0
  samples_per_step := 1
  sample_counter := 0

/-- C1 evaluation at the failing input: with one track present whose
pattern is empty, `get_max_pattern_len` is 0 (the `unwrap_or(1)` default
only covers the no-tracks case), so the step advance computes
`(step + 1) % 0` and panics — modelled as `none`. -/
theorem C1_process_panics_on_empty_patterns : panicSeq.process = none := by
  have h1 : panicSeq.afterClock = none := by
    rw [Sequencer.afterClock]
    rw [if_pos (show panicSeq.sample_counter + 1 ≥ panicSeq.samples_per_step from by norm_num [panicSeq])]
    rw [if_pos (show panicSeq.get_max_pattern_len = 0 from rfl)]
  rw [Sequencer.process, h1]
  rfl

/-! ## The end-to-end scenario state -/

/-- `minor_scale "g"` as a literal: [7, 9, 10, 12, 14, 15, 17]. -/
def gScale : List ℤ := [7, 9, 10, 12, 14, 15, 17]

/-- The scenario's track: pattern [0, −1, 3], octave 3, transpose 0,
voice spread 7. -/
def scenarioTrack : Track where
  name := "Main"
  pattern := [0, -1, 3]
  octave := 3
  transpose := 0
  waveform := Waveform.Saw
  voice_spread := 7

/-- The scenario sequencer: sample rate 44100, 11025 samples per step, one
track, one voice. -/
noncomputable def scenarioSeq : Sequencer where
  tracks := [scenarioTrack]
  scale := gScale
  voices := [[Voice.new]]
  sample_rate := 44100
  step := 0
  samples_per_step := 11025
  sample_counter := 0

/-- The scenario sequencer already sitting at step 2 (pattern note 3). -/
noncomputable def witSeq : Sequencer where
  tracks := [scenarioTrack]
  scale := gScale
  voices := [[Voice.new]]
  sample_rate := 44100
  step := 2
  samples_per_step := 11025
  sample_counter := 0

/-- The scenario sequencer already sitting at step 1 (the rest). -/
noncomputable def restSeq : Sequencer where
  tracks := [scenarioTrack]
  scale := gScale
  voices := [[Voice.new]]
  sample_rate := 44100
  step := 1
  samples_per_step := 11025
  sample_counter := 0

/-- The single scenario voice after the trigger of pattern note 3
(MIDI base 48). -/
noncomputable def trigVoice48 : Voice :=
  { Voice.new with frequency := midi_to_freq 48, waveform := Waveform.Saw, env_phase := 0 }

/-- The single scenario voice after the trigger of pattern note 0
(MIDI base 43). -/
noncomputable def trigVoice43 : Voice :=
  { Voice.new with frequency := midi_to_freq 43, waveform := Waveform.Saw, env_phase := 0 }

/-- C5 witness: triggering the scenario track at step 2 (note 3, scale
degree 12) re-tunes the single voice as the theorem states. -/
theorem C5_witness :
    ∃ s', witSeq.trigger_step = some s' ∧
      s'.voices[0]? = some ([Voice.new].mapIdx fun i v =>
        { v with
          frequency := midi_to_freq (12 + scenarioTrack.transpose +
            scenarioTrack.octave * 12 + (i : ℤ) * scenarioTrack.voice_spread),
          waveform := scenarioTrack.waveform, env_phase := 0 }) := by
  have htr : witSeq.trigger_step = some { witSeq with voices := [[trigVoice48]] } := by
    rw [Sequencer.trigger_step,
      show witSeq.tracks = [scenarioTrack] from rfl,
      show witSeq.voices = [[Voice.new]] from rfl,
      triggerLoop,
      trackAction_note witSeq.scale witSeq.step scenarioTrack 3 rfl (by norm_num) 12 rfl,
      Option.some_bind, triggerLoop, Option.map_some']
    rfl
  exact ⟨_, htr, C5_trigger_sets_track_voices _ _ htr 0 scenarioTrack rfl 3 rfl
    (by norm_num) 12 rfl [Voice.new] rfl⟩

/-- C7 witness: triggering the scenario track at step 1 (the rest −1)
leaves the voice stack exactly as it was. -/
theorem C7_witness :
    ∃ s', restSeq.trigger_step = some s' ∧ s'.voices[0]? = restSeq.voices[0]? := by
  have htr : restSeq.trigger_step = some { restSeq with voices := [[Voice.new]] } := by
    rw [Sequencer.trigger_step,
      show restSeq.tracks = [scenarioTrack] from rfl,
      show restSeq.voices = [[Voice.new]] from rfl,
      triggerLoop,
      trackAction_rest restSeq.scale restSeq.step scenarioTrack (-1) (by decide) (by norm_num),
      Option.some_bind, triggerLoop, Option.map_some']
    rfl
  exact ⟨_, htr, C7_rest_leaves_voices _ _ htr 0 scenarioTrack rfl (-1) (by decide) (by norm_num)⟩

/-! ## C10: save/load round trip -/

/-! ## C2: the end-to-end trace of the scenario -/

theorem mixState_voices (s : Sequencer) :
    s.mixState.voices = s.voices.map fun vs => vs.map fun v => (v.process s.sample_rate).1 := rfl

theorem seqFreqs_single (s : Sequencer) (v : Voice) (h : s.voices = [[v]]) :
    seqFreqs s = [[v.frequency]] := by
  rw [seqFreqs, h]
  rfl

/-- Splitting an iterated run of `process`. -/
theorem processN_add (m n : ℕ) : ∀ s : Sequencer,
    Sequencer.processN (m + n) s =
      (Sequencer.processN m s).bind (Sequencer.processN n) := by
  induction m with
  | zero =>
    intro s
    simp [Sequencer.processN]
  | succ m ih =>
    intro s
    have e : m + 1 + n = (m + n) + 1 := by omega
    rw [e, Sequencer.processN, Sequencer.processN]
    cases hp : s.process with
    | none => rfl
    | some p =>
      simp only [Option.some_bind]
      exact ih p.1

/-- A run of `n` calls that stays inside one step: the counter advances by
`n`, the step does not move, and no voice's frequency changes. -/
theorem scenario_block (n : ℕ) :
    ∀ (s : Sequencer) (v : Voice),
      s.tracks = [scenarioTrack] → s.scale = gScale → s.voices = [[v]] →
      s.samples_per_step = 11025 → s.sample_counter + n < 11025 →
      ∃ (s' : Sequencer) (v' : Voice),
        Sequencer.processN n s = some s' ∧ s'.tracks = [scenarioTrack] ∧
        s'.scale = gScale ∧ s'.voices = [[v']] ∧ s'.samples_per_step = 11025 ∧
        s'.step = s.step ∧ s'.sample_counter = s.sample_counter + n ∧
        v'.frequency = v.frequency := by
  induction n with
  | zero =>
    intro s v h1 h2 h3 h4 h5
    exact ⟨s, v, rfl, h1, h2, h3, h4, rfl, rfl, rfl⟩
  | succ n ih =>
    intro s v h1 h2 h3 h4 h5
    have hc : ¬ s.sample_counter + 1 ≥ s.samples_per_step := by omega
    have hac : s.afterClock = some { s with sample_counter := s.sample_counter + 1 } := by
      rw [Sequencer.afterClock, if_neg hc]
    have hpr : Sequencer.processN (n + 1) s =
        Sequencer.processN n ({ s with sample_counter := s.sample_counter + 1 }).mixState := by
      rw [Sequencer.processN, Sequencer.process, hac, Option.map_some', Option.some_bind]
    rw [hpr]
    obtain ⟨s', v', hN, g1, g2, g3, g4, g5, g6, g7⟩ :=
      ih (({ s with sample_counter := s.sample_counter + 1 }).mixState)
        ((v.process s.sample_rate).1) h1 h2
        (by rw [mixState_voices]
            show s.voices.map _ = _
            rw [h3]
            rfl)
        h4
        (by show s.sample_counter + 1 + n < 11025
            omega)
    refine ⟨s', v', hN, g1, g2, g3, g4, g5, ?_, g7⟩
    have g6' : s'.sample_counter = s.sample_counter + 1 + n := g6
    omega

/-- Triggering a scenario-shaped state whose step is at the rest (index 1
of the pattern) leaves the voice stack as it is. -/
theorem scenario_trigger_rest (s : Sequencer) (v : Voice)
    (h1 : s.tracks = [scenarioTrack]) (h3 : s.voices = [[v]])
    (hst : s.step % 3 = 1) :
    s.trigger_step = some { s with voices := [[v]] } := by
  have hn : scenarioTrack.pattern[s.step % scenarioTrack.pattern.length]? = some (-1) := by
    rw [show scenarioTrack.pattern.length = 3 from rfl, hst]
    decide
  rw [Sequencer.trigger_step, h1, h3, triggerLoop,
    trackAction_rest s.scale s.step scenarioTrack (-1) hn (by norm_num),
    Option.some_bind, triggerLoop, Option.map_some']
  rfl

/-- The clock half of a boundary call on a scenario-shaped state: counter
reset, step advanced modulo the pattern length 3. -/
def advanced (s : Sequencer) : Sequencer :=
  { s with sample_counter := 0, step := (s.step + 1) % 3 }

/-- `advanced`, with the single voice stack replaced by the trigger's
output. -/
def advancedWith (s : Sequencer) (w : Voice) : Sequencer :=
  { s with sample_counter := 0, step := (s.step + 1) % 3, voices := [[w]] }

/-- The body of the trigger loop's `mapIdx`: voice `i` re-tuned against
scale note `sn` and track `t`. -/
noncomputable def retuned (t : Track) (sn : ℤ) (i : ℕ) (v : Voice) : Voice :=
  { v with
    frequency := midi_to_freq (sn + t.transpose + t.octave * 12 + (i : ℤ) * t.voice_spread),
    waveform := t.waveform, env_phase := 0 }

/-- Triggering a scenario-shaped state whose step is at a non-rest pattern
entry re-tunes the single voice to `midi_to_freq (sn + 36)` (transpose 0,
octave 3, voice index 0). -/
theorem scenario_trigger_tone (s : Sequencer) (v : Voice) (note sn : ℤ)
    (h1 : s.tracks = [scenarioTrack]) (h2 : s.scale = gScale) (h3 : s.voices = [[v]])
    (hnote : scenarioTrack.pattern[s.step % scenarioTrack.pattern.length]? = some note)
    (hpos : 0 ≤ note) (hsn : gScale[note.toNat % 7]? = some sn) :
    ∃ w, s.trigger_step = some { s with voices := [[w]] } ∧
      w.frequency = midi_to_freq (sn + 36) ∧ w.waveform = Waveform.Saw ∧
      w.env_phase = 0 := by
  have hsn' : s.scale[note.toNat % s.scale.length]? = some sn := by
    rw [h2]
    exact hsn
  refine ⟨retuned scenarioTrack sn 0 v, ?_, ?_, rfl, rfl⟩
  · rw [Sequencer.trigger_step, h1, h3, triggerLoop,
      trackAction_note s.scale s.step scenarioTrack note hnote hpos sn hsn',
      Option.some_bind, triggerLoop, Option.map_some']
    rfl
  · show midi_to_freq (sn + scenarioTrack.transpose + scenarioTrack.octave * 12 +
      ((0 : ℕ) : ℤ) * scenarioTrack.voice_spread) = midi_to_freq (sn + 36)
    exact congrArg midi_to_freq (by norm_num [scenarioTrack])

/-- One boundary call of `process` on a scenario-shaped state whose
counter sits at 11024: the counter resets, the step advances modulo 3,
the trigger result `[[w]]` is processed once (frequency untouched). -/
theorem scenario_boundary_step (s : Sequencer) (v w : Voice)
    (h1 : s.tracks = [scenarioTrack]) (h2 : s.scale = gScale) (h3 : s.voices = [[v]])
    (h4 : s.samples_per_step = 11025) (h5 : s.sample_counter = 11024)
    (htr : Sequencer.trigger_step (advanced s) = some (advancedWith s w)) :
    ∃ (s' : Sequencer) (v' : Voice),
      Sequencer.processN 1 s = some s' ∧ s'.tracks = [scenarioTrack] ∧
      s'.scale = gScale ∧ s'.voices = [[v']] ∧ s'.samples_per_step = 11025 ∧
      s'.step = (s.step + 1) % 3 ∧ s'.sample_counter = 0 ∧
      v'.frequency = w.frequency := by
  have hm : s.get_max_pattern_len = 3 := by
    rw [Sequencer.get_max_pattern_len, h1]
    rfl
  have hac : s.afterClock = some (advancedWith s w) := by
    rw [Sequencer.afterClock, if_pos (by omega), hm, if_neg (by norm_num)]
    exact htr
  have hpr : Sequencer.processN 1 s = some (advancedWith s w).mixState := by
    have h0 : Sequencer.processN 1 s =
        (s.process).bind fun p => Sequencer.processN 0 p.1 := rfl
    rw [h0, Sequencer.process, hac, Option.map_some', Option.some_bind]
    rfl
  exact ⟨_, (w.process s.sample_rate).1, hpr, h1, h2, rfl, h4, rfl, rfl, rfl⟩

/-- How far `midi_to_freq 43` is from the default frequency: it is below
440 (the exponent (43−69)/12 is negative). -/
theorem midi_to_freq_43_lt_440 : midi_to_freq 43 < 440 := by
  rw [midi_to_freq]
  have h0 : (((43 : ℤ) : ℝ) - 69) / 12 < 0 := by
    push_cast
    norm_num
  have h2 := Real.rpow_lt_one_of_one_lt_of_neg (by norm_num : (1 : ℝ) < 2) h0
  nlinarith [h2]

/-- C2 counterexample: after the call producing sample 0, the scenario
voice's frequency is still the default 440 Hz, not `midi_to_freq 43`
(≈82.4 Hz): no trigger fires at sample 0, because the clock only triggers
when the counter reaches a boundary, and the initial step 0 is never
triggered. -/
theorem C2_counterexample :
    ∃ s', Sequencer.processN 1 scenarioSeq = some s' ∧
      seqFreqs s' = [[(440 : ℝ)]] ∧ (440 : ℝ) ≠ midi_to_freq 43 := by
  obtain ⟨s', v', hN, _, _, h3, _, _, _, h7⟩ :=
    scenario_block 1 scenarioSeq Voice.new rfl rfl rfl rfl
      (by show (0 : ℕ) + 1 < 11025; norm_num)
  refine ⟨s', hN, ?_, (ne_of_gt midi_to_freq_43_lt_440)⟩
  rw [seqFreqs_single s' v' h3, h7]
  rfl

/-- C2 amended: in the scenario, no trigger fires at sample 0 — after the
first call the step is still 0 and the voice still has its initialised
default 440 Hz, not `midi_to_freq 43`.  The first boundary is processed
during the 11025th call (the one producing sample index 11024, one sample
before the spec's stated boundary): the step advances to 1, a rest, and
the frequency stays 440.  The boundary during the call producing sample
index 22049 advances to step 2 and sets the frequency to
`midi_to_freq 48`; pattern index 0 is first triggered at the boundary
during the call producing sample index 33074, setting `midi_to_freq 43`. -/
theorem C2_step_trigger_timing :
    (∃ s', Sequencer.processN 1 scenarioSeq = some s' ∧
      s'.step = 0 ∧ seqFreqs s' = [[(440 : ℝ)]]) ∧
    (∃ s', Sequencer.processN 11024 scenarioSeq = some s' ∧
      s'.step = 0 ∧ seqFreqs s' = [[(440 : ℝ)]]) ∧
    (∃ s', Sequencer.processN 11025 scenarioSeq = some s' ∧
      s'.step = 1 ∧ seqFreqs s' = [[(440 : ℝ)]]) ∧
    (∃ s', Sequencer.processN 22050 scenarioSeq = some s' ∧
      s'.step = 2 ∧ seqFreqs s' = [[midi_to_freq 48]]) ∧
    (∃ s', Sequencer.processN 33075 scenarioSeq = some s' ∧
      s'.step = 0 ∧ seqFreqs s' = [[midi_to_freq 43]]) := by
  obtain ⟨s1, v1, hN1, _, _, e3, _, e5, _, e7⟩ :=
    scenario_block 1 scenarioSeq Voice.new rfl rfl rfl rfl
      (by show (0 : ℕ) + 1 < 11025; norm_num)
  have hf1 : v1.frequency = 440 := e7
  obtain ⟨sA, vA, hA, a1, a2, a3, a4, a5, a6, a7⟩ :=
    scenario_block 11024 scenarioSeq Voice.new rfl rfl rfl rfl
      (by show (0 : ℕ) + 11024 < 11025; norm_num)
  have hstepA : sA.step = 0 := a5
  have hcntA : sA.sample_counter = 11024 := a6
  have hfA : vA.frequency = 440 := a7
  have htr1 : Sequencer.trigger_step (advanced sA) = some (advancedWith sA vA) :=
    scenario_trigger_rest (advanced sA) vA a1 a3
      (by show (sA.step + 1) % 3 % 3 = 1; omega)
  obtain ⟨sB, vB, hB1, b1, b2, b3, b4, b5, b6, b7⟩ :=
    scenario_boundary_step sA vA vA a1 a2 a3 a4 hcntA htr1
  have hstepB : sB.step = 1 := by rw [b5]; omega
  have hfB : vB.frequency = 440 := by rw [b7]; exact hfA
  have h11025 : Sequencer.processN 11025 scenarioSeq = some sB := by
    rw [show (11025 : ℕ) = 11024 + 1 from by norm_num, processN_add, hA, Option.some_bind]
    exact hB1
  obtain ⟨sC, vC, hC, c1, c2, c3, c4, c5, c6, c7⟩ :=
    scenario_block 11024 sB vB b1 b2 b3 b4 (by omega)
  have hstepC : sC.step = 1 := by rw [c5]; exact hstepB
  have hcntC : sC.sample_counter = 11024 := by omega
  have hfC : vC.frequency = 440 := by rw [c7]; exact hfB
  obtain ⟨w2, htr2, hw2f, -, -⟩ :=
    scenario_trigger_tone (advanced sC) vC 3 12 c1 c2 c3
      (by show scenarioTrack.pattern[(sC.step + 1) % 3 % scenarioTrack.pattern.length]? = some 3
          rw [show scenarioTrack.pattern.length = 3 from rfl, hstepC]
          decide)
      (by norm_num) (by decide)
  have htr2' : Sequencer.trigger_step (advanced sC) = some (advancedWith sC w2) := htr2
  obtain ⟨sD, vD, hD1, d1, d2, d3, d4, d5, d6, d7⟩ :=
    scenario_boundary_step sC vC w2 c1 c2 c3 c4 hcntC htr2'
  have hstepD : sD.step = 2 := by rw [d5]; omega
  have hfD : vD.frequency = midi_to_freq 48 := by
    rw [d7, hw2f]
    norm_num
  have h11025B : Sequencer.processN 11025 sB = some sD := by
    rw [show (11025 : ℕ) = 11024 + 1 from by norm_num, processN_add, hC, Option.some_bind]
    exact hD1
  have h22050 : Sequencer.processN 22050 scenarioSeq = some sD := by
    rw [show (22050 : ℕ) = 11025 + 11025 from by norm_num, processN_add, h11025,
      Option.some_bind]
    exact h11025B
  obtain ⟨sE, vE, hE, g1, g2, g3, g4, g5, g6, g7⟩ :=
    scenario_block 11024 sD vD d1 d2 d3 d4 (by omega)
  have hstepE : sE.step = 2 := by rw [g5]; exact hstepD
  have hcntE : sE.sample_counter = 11024 := by omega
  obtain ⟨w3, htr3, hw3f, -, -⟩ :=
    scenario_trigger_tone (advanced sE) vE 0 7 g1 g2 g3
      (by show scenarioTrack.pattern[(sE.step + 1) % 3 % scenarioTrack.pattern.length]? = some 0
          rw [show scenarioTrack.pattern.length = 3 from rfl, hstepE]
          decide)
      (by norm_num) (by decide)
  have htr3' : Sequencer.trigger_step (advanced sE) = some (advancedWith sE w3) := htr3
  obtain ⟨sF, vF, hF1, f1, f2, f3, f4, f5, f6, f7⟩ :=
    scenario_boundary_step sE vE w3 g1 g2 g3 g4 hcntE htr3'
  have hstepF : sF.step = 0 := by rw [f5]; omega
  have hfF : vF.frequency = midi_to_freq 43 := by
    rw [f7, hw3f]
    norm_num
  have h11025D : Sequencer.processN 11025 sD = some sF := by
    rw [show (11025 : ℕ) = 11024 + 1 from by norm_num, processN_add, hE, Option.some_bind]
    exact hF1
  have h33075 : Sequencer.processN 33075 scenarioSeq = some sF := by
    rw [show (33075 : ℕ) = 22050 + 11025 from by norm_num, processN_add, h22050,
      Option.some_bind]
    exact h11025D
  refine ⟨⟨s1, hN1, e5, ?_⟩, ⟨sA, hA, hstepA, ?_⟩, ⟨sB, h11025, hstepB, ?_⟩,
    ⟨sD, h22050, hstepD, ?_⟩, ⟨sF, h33075, hstepF, ?_⟩⟩
  · rw [seqFreqs_single s1 v1 e3, hf1]
  · rw [seqFreqs_single sA vA a3, hfA]
  · rw [seqFreqs_single sB vB b3, hfB]
  · rw [seqFreqs_single sD vD d3, hfD]
  · rw [seqFreqs_single sF vF f3, hfF]

/-- C10: loading `to_project bpm` back with `from_project` preserves the
tracks and the scale, resets `step` and `sample_counter` to 0, and
allocates one fresh 3-voice stack per track. -/
theorem C10_roundtrip (s : Sequencer) (bpm sr : ℝ) :
    (Sequencer.from_project (s.to_project bpm) sr).tracks = s.tracks ∧
    (Sequencer.from_project (s.to_project bpm) sr).scale = s.scale ∧
    (Sequencer.from_project (s.to_project bpm) sr).step = 0 ∧
    (Sequencer.from_project (s.to_project bpm) sr).sample_counter = 0 ∧
    (Sequencer.from_project (s.to_project bpm) sr).voices =
      List.replicate s.tracks.length (List.replicate 3 Voice.new) :=
  ⟨rfl, rfl, rfl, rfl, rfl⟩

end Vibez
